import Mathlib

/-!
A verification development for the GPU data model and batching engine of the
vector-image renderer (`src/renderer/src/vector_image_renderer.rs`).

Modelling conventions:
* `u32` values are `Nat` with explicit `% 2^32` / bound guards where the Rust
  semantics wraps or checks; the repository exercises its code through
  `cargo test`, i.e. a debug build, so checked arithmetic (`+`, `-`, `*`
  overflow panics), `assert!` and `debug_assert!` are all live.  Every fatal
  outcome (assertion failure, arithmetic overflow, division by zero, slice
  index out of bounds, `unwrap` of an `Err`) is modelled as `none`.
* `as u32` / `as usize` casts wrap silently and are modelled with `% 2^32`.
* Buffers of GPU words are `List Nat` (the word values themselves are opaque
  to every algorithm modelled here).
-/

namespace VectorImageRenderer

/-! Section: GpuAddress (source lines 94-154) -/


def GPU_ADDR_HEADER_MASK : Nat := 0xFF000000
/-- In the source this is `!GPU_ADDR_HEADER_MASK` on `u32`, i.e. `0x00FFFFFF`. -/
def GPU_ADDR_OFFSET_MASK : Nat := 0x00FFFFFF
def GPU_ADDR_GLOBAL : Nat := 0x00000000
def GPU_ADDR_INSTANCE : Nat := 0x80000000
def GPU_ADDR_SHARED : Nat := 0x40000000
inductive GpuAddressType where
  | Global
  | Instance
  | Shared
deriving DecidableEq, Repr
structure GpuAddress where
  raw : Nat
deriving DecidableEq, Repr
def GpuAddressType.header : GpuAddressType → Nat
  | .Global => GPU_ADDR_GLOBAL
  | .Instance => GPU_ADDR_INSTANCE
  | .Shared => GPU_ADDR_SHARED
/-- Model of `GpuAddress::new`; the `assert!(offset & GPU_ADDR_HEADER_MASK == 0)` is
modelled by returning `none` on violation. -/
def GpuAddress.new (ty : GpuAddressType) (offset : Nat) : Option GpuAddress :=
  if offset &&& GPU_ADDR_HEADER_MASK = 0 then
    some ⟨offset ||| ty.header⟩
  else
    none
/-- Model of `GpuAddress::global`. -/
def GpuAddress.global (offset : Nat) : Option GpuAddress :=
  if offset &&& GPU_ADDR_HEADER_MASK = 0 then some ⟨offset⟩ else none
/-- Model of `GpuAddress::instance` (`instance` is a Lean keyword). -/
def GpuAddress.instanceAddr (offset : Nat) : Option GpuAddress :=
  if offset &&& GPU_ADDR_HEADER_MASK = 0 then
    some ⟨offset ||| GPU_ADDR_INSTANCE⟩
  else
    none
/-- Model of `GpuAddress::shared`. -/
def GpuAddress.shared (offset : Nat) : Option GpuAddress :=
  if offset &&& GPU_ADDR_HEADER_MASK = 0 then
    some ⟨offset ||| GPU_ADDR_SHARED⟩
  else
    none
/-- Model of `GpuAddress::address_type`; the `panic!` arm is `none`. -/
def GpuAddress.address_type (a : GpuAddress) : Option GpuAddressType :=
  if a.raw &&& GPU_ADDR_HEADER_MASK = GPU_ADDR_INSTANCE then some .Instance
  else if a.raw &&& GPU_ADDR_HEADER_MASK = GPU_ADDR_SHARED then some .Shared
  else if a.raw &&& GPU_ADDR_HEADER_MASK = GPU_ADDR_GLOBAL then some .Global
  else none
/-- Model of `GpuAddress::offset`. -/
def GpuAddress.offset (a : GpuAddress) : Nat := a.raw &&& GPU_ADDR_OFFSET_MASK
/-- Model of `GpuAddress::add_assign`: asserts only on `val`; `self.0 += val` is a
debug-checked `u32` addition, then the sum is masked down to the offset
field. -/
def GpuAddress.add_assign (a : GpuAddress) (val : Nat) : Option GpuAddress :=
  if val &&& GPU_ADDR_HEADER_MASK = 0 then
    if a.raw + val < 2 ^ 32 then
      some ⟨(a.raw + val) &&& GPU_ADDR_OFFSET_MASK⟩
    else
      none
  else
    none
/-! Section: GpuAddressRange (source lines 156-171) -/


structure GpuAddressRange where
  start : GpuAddress
  stop : GpuAddress     -- `end` in the source; `end` is a Lean keyword
deriving DecidableEq, Repr
def GpuAddressRange.is_empty (r : GpuAddressRange) : Bool := r.start = r.stop
/-- Model of `GpuAddressRange::shrink_left`: `self.end.offset() - self.start.offset()`
is a debug-checked `u32` subtraction (underflow panics), then
`assert!(... >= amount)`, then `self.start.add_assign(amount)`. -/
def GpuAddressRange.shrink_left (r : GpuAddressRange) (amount : Nat) :
    Option GpuAddressRange :=
  if r.stop.offset < r.start.offset then none
  else if r.stop.offset - r.start.offset < amount then none
  else
    match r.start.add_assign amount with
    | none => none
    | some s => some ⟨s, r.stop⟩
/-- The byte written into the header by each address type. -/
def GpuAddressType.headerByte : GpuAddressType → Nat
  | .Global => 0x00
  | .Instance => 0x80
  | .Shared => 0x40
/-! Section: DataType / MemoryLayout (source lines 642-718) -/


inductive ScalarType where
  | I32
  | F32
  | Address
  | Unknown
deriving DecidableEq, Repr
structure DataType where
  scalar : ScalarType
  size : Nat
deriving DecidableEq, Repr
/-- Model of `DataType::alignment`: 1→1, 2→2, 3→4, otherwise `(n / 4) * 4`. -/
def DataType.alignment (t : DataType) : Nat :=
  match t.size with
  | 1 => 1
  | 2 => 2
  | 3 => 4
  | n => n / 4 * 4
def DataType.float : DataType := ⟨.F32, 1⟩
def DataType.vec2 : DataType := ⟨.F32, 2⟩
def DataType.vec3 : DataType := ⟨.F32, 3⟩
def DataType.vec4 : DataType := ⟨.F32, 4⟩
def DataType.transform_2d : DataType := ⟨.F32, 6⟩
def DataType.transform_3d : DataType := ⟨.F32, 16⟩
structure Member where
  ty : DataType
  offset : GpuAddress
deriving DecidableEq, Repr
structure MemoryLayout where
  members : List Member
  size : Nat
  mem_type : GpuAddressType
deriving DecidableEq, Repr
def MemoryLayout.new (mem_type : GpuAddressType) : MemoryLayout :=
  ⟨[], 0, mem_type⟩
/-- The padding computed by `MemoryLayout::alloc`:
`match size % alignment { 0 => 0, n => alignment - n }`. -/
def allocAdjust (size alignment : Nat) : Nat :=
  match size % alignment with
  | 0 => 0
  | n => alignment - n
/-- Model of `MemoryLayout::alloc`.  `self.size % alignment` panics when the alignment
is zero (division by zero); `self.size + adjust` and
`self.size += adjust + ty.size()` are debug-checked `u32` additions. -/
def MemoryLayout.alloc (l : MemoryLayout) (ty : DataType) :
    Option (GpuAddress × MemoryLayout) :=
  if ty.alignment = 0 then none
  else if l.size + allocAdjust l.size ty.alignment < 2 ^ 32 then
    match GpuAddress.new l.mem_type (l.size + allocAdjust l.size ty.alignment) with
    | none => none
    | some addr =>
      if l.size + allocAdjust l.size ty.alignment + ty.size < 2 ^ 32 then
        some (addr, ⟨l.members ++ [⟨ty, addr⟩],
          l.size + allocAdjust l.size ty.alignment + ty.size, l.mem_type⟩)
      else none
  else none
/-- A sequence of `alloc` calls, returning the addresses in call order. -/
def MemoryLayout.allocList (l : MemoryLayout) :
    List DataType → Option (List GpuAddress × MemoryLayout)
  | [] => some ([], l)
  | t :: ts =>
    match l.alloc t with
    | none => none
    | some (a, l₁) =>
      match l₁.allocList ts with
      | none => none
      | some (as, l₂) => some (a :: as, l₂)
/-- The concrete allocation sequence used by the C5 witness. -/
def sampleTypes : List DataType :=
  [DataType.float, DataType.vec3, DataType.transform_2d]
/-- Result of replaying `sampleTypes` on a fresh shared layout. -/
def sampleOffsets : List GpuAddress :=
  [⟨0x40000000⟩, ⟨0x40000004⟩, ⟨0x40000008⟩]
/-- Final layout state after replaying `sampleTypes`. -/
def sampleLayout : MemoryLayout :=
  MemoryLayout.mk
    [Member.mk DataType.float ⟨0x40000000⟩,
      Member.mk DataType.vec3 ⟨0x40000004⟩,
      Member.mk DataType.transform_2d ⟨0x40000008⟩]
    14 .Shared
/-! Section: GpuMemory (source lines 70-73 and 468-492) -/


/-- A buffer of GPU words.  The word values are opaque to every algorithm
modelled here, so a word is a bare `Nat`. -/
structure GpuMemory where
  buffer : List Nat
deriving DecidableEq, Repr
def GpuMemory.new : GpuMemory := ⟨[]⟩
def GpuMemory.len (m : GpuMemory) : Nat := m.buffer.length
def GpuMemory.as_slice (m : GpuMemory) : List Nat := m.buffer
/-- The element-wise write loop of `GpuMemory::set`:
`for (offset, element) in block { buffer[base + offset] = element }`.
Indexing out of bounds panics, modelled as `none`. -/
def setWords : List Nat → Nat → List Nat → Option (List Nat)
  | buf, _, [] => some buf
  | buf, base, x :: rest =>
    if base < buf.length then setWords (buf.set base x) (base + 1) rest
    else none
/-- Model of `GpuMemory::push`: `debug_assert_eq!(block.len() % 4, 0)`, then the
address is `GpuAddress::global(buffer.len() as u32)`, then the buffer is
extended with the block. -/
def GpuMemory.push (m : GpuMemory) (block : List Nat) :
    Option (GpuAddress × GpuMemory) :=
  if block.length % 4 = 0 then
    match GpuAddress.global (m.buffer.length % 2 ^ 32) with
    | none => none
    | some a => some (a, ⟨m.buffer ++ block⟩)
  else none
/-- Model of `GpuMemory::set`: the base index is `address.0 as usize` — the full raw
word, tag bits included. -/
def GpuMemory.set (m : GpuMemory) (address : GpuAddress) (block : List Nat) :
    Option GpuMemory :=
  (setWords m.buffer address.raw block).map GpuMemory.mk
/-! Section: VectorImageInstance cloning (source lines 418-434)

`VectorImageInstance` holds `base: Arc<VectorImage>` and an owned
`gpu_data: GpuMemory`; `clone_instance` does `Arc::clone` on the base and
`GpuMemory::clone` (a `Vec` deep copy) on the data.  To make Rust's ownership
and aliasing visible to the shallow embedding, the heap is explicit: shared
`VectorImage` descriptors and owned `GpuMemory` buffers are addressed by
identity (an index into a store), so "same `Arc`" is "same base index" and
"deep copy" is "fresh buffer index holding an equal buffer". -/


structure InstanceStore where
  bufs : List GpuMemory
deriving DecidableEq, Repr
/-- A `VectorImageInstance`: `base` is the identity of the shared
`Arc<VectorImage>`, `gpu_data` the identity of the owned buffer. -/
structure InstanceRef where
  base : Nat
  gpu_data : Nat
deriving DecidableEq, Repr
/-- Model of `VectorImageInstance::clone_instance`: shares `base`, deep-copies the
buffer into a fresh identity. -/
def clone_instance (w : InstanceStore) (i : InstanceRef) :
    InstanceStore × InstanceRef :=
  (⟨w.bufs ++ [w.bufs.getD i.gpu_data ⟨[]⟩]⟩, ⟨i.base, w.bufs.length⟩)
/-- Mutating an instance's own buffer through `GpuMemory::set`. -/
def instance_set (w : InstanceStore) (i : InstanceRef) (a : GpuAddress)
    (block : List Nat) : Option InstanceStore :=
  match (w.bufs.getD i.gpu_data ⟨[]⟩).set a block with
  | none => none
  | some m => some ⟨w.bufs.set i.gpu_data m⟩
/-! Section: VectorImageBuilder::build error handling (source lines 303-362)

Tessellation is the external collaborator; each recorded fill/stroke command
is represented by the outcome its tessellation call would produce.  In the
source, the fill loop calls `.unwrap()` on each `tessellate_path` result
(a fatal panic on `Err`), while the stroke loop discards the result
entirely; `build`'s return type (`VectorImageInstance`) carries no error
variant, so no recoverable error can be returned. -/


inductive TessResult where
  | success
  | failure
deriving DecidableEq, Repr
/-- The fill replay loop: each result is `.unwrap()`ed. -/
def runFillCmds : List TessResult → Option Unit
  | [] => some ()
  | .success :: rest => runFillCmds rest
  | .failure :: _ => none
/-- The stroke replay loop: the tessellation result is discarded. -/
def runStrokeCmds : List TessResult → Unit
  | _ => ()
/-- The control-flow skeleton of `VectorImageBuilder::build`: fill commands
are replayed in reverse insertion order and unwrapped, then stroke commands
are replayed in reverse insertion order with results ignored; on success the
descriptor records whether any fill / stroke ops exist. -/
def buildRun (fill_cmds stroke_cmds : List TessResult) : Option (Bool × Bool) :=
  match runFillCmds fill_cmds.reverse with
  | none => none
  | some _ =>
    let _ := runStrokeCmds stroke_cmds.reverse
    some (decide (0 < fill_cmds.length), decide (0 < stroke_cmds.length))
/-! Section: LayerBuilder / Layer (source lines 494-581)

The `HashMap<VectorImageId, LayerVectorImage>` is modelled by the
chronological log of `add` calls: the bucket for an image id is the log
filtered to that id, which reproduces the per-bucket push order exactly.
`HashMap` iteration order is unspecified in Rust; `build` here visits
buckets in first-insertion order of ids — the claims settled against this
model are insensitive to bucket order (C1 concerns a single bucket, C6 only
per-bucket contents). -/


/-- The fields of `VectorImageDescriptor` that `LayerBuilder` reads. -/
structure VIDescriptor where
  id : Nat
  z_range : Nat
  mem_per_instance : Nat
  contains_fill_ops : Bool
  contains_stroke_ops : Bool
  geometry : Nat
deriving DecidableEq, Repr
/-- A `VectorImageInstance` as seen by the layer: its (shared) descriptor
plus its per-instance GPU data. -/
structure LayerInstance where
  descriptor : VIDescriptor
  gpu_data : List Nat
deriving DecidableEq, Repr
/-- Model of `RenderedInstance { instance, z_index }`. -/
structure RenderedInstance where
  inst : LayerInstance
  z_index : Nat
deriving DecidableEq, Repr
structure LayerBuilderState where
  log : List RenderedInstance
  z_index : Nat
deriving DecidableEq, Repr
/-- Model of `LayerBuilder::add`: push `{instance, current z}` into the image's
bucket, then `self.z_index += z_range` (debug-checked add). -/
def LayerBuilder.add (s : LayerBuilderState) (i : LayerInstance) :
    Option LayerBuilderState :=
  if s.z_index + i.descriptor.z_range < 2 ^ 32 then
    some ⟨s.log ++ [⟨i, s.z_index⟩], s.z_index + i.descriptor.z_range⟩
  else none
def LayerBuilder.addAll : LayerBuilderState → List LayerInstance →
    Option LayerBuilderState
  | s, [] => some s
  | s, i :: is =>
    match LayerBuilder.add s i with
    | none => none
    | some s' => LayerBuilder.addAll s' is
/-- The bucket of instances recorded for one image id. -/
def bucketOf (s : LayerBuilderState) (id : Nat) : List RenderedInstance :=
  s.log.filter (fun r => r.inst.descriptor.id == id)
/-- The comparator of `item.instances.sort_by(|a, b| a.z_index.cmp(&b.z_index))`. -/
def zLE (a b : RenderedInstance) : Bool := decide (a.z_index ≤ b.z_index)
/-- The per-bucket sort in `LayerBuilder::build`; Rust's `sort_by` is a
stable sort, modelled by stable `mergeSort` under the same key order. -/
def sortInstances (l : List RenderedInstance) : List RenderedInstance :=
  l.mergeSort zLE
/-- The `GfxDevice` state (source lines 743-753): a bump allocator plus, for
observation, the traces of `allocate_gpu_data` sizes and `set_gpu_data`
arguments. -/
structure DeviceState where
  alloc : Nat
  allocs : List Nat
  uploads : List (GpuAddressRange × List Nat)
deriving DecidableEq, Repr
/-- Model of `GfxDevice::allocate_gpu_data`: `start = global(alloc)`,
`alloc += size` (debug-checked), `end = global(alloc)`. -/
def Device.allocate_gpu_data (d : DeviceState) (size : Nat) :
    Option (GpuAddressRange × DeviceState) :=
  match GpuAddress.global d.alloc with
  | none => none
  | some start =>
    if d.alloc + size < 2 ^ 32 then
      match GpuAddress.global (d.alloc + size) with
      | none => none
      | some stop =>
        some (⟨start, stop⟩, ⟨d.alloc + size, d.allocs ++ [size], d.uploads⟩)
    else none
/-- Model of `GfxDevice::set_gpu_data`: `assert!(self.alloc >= range.end.offset())`;
the call's arguments are recorded as the upload trace. -/
def Device.set_gpu_data (d : DeviceState) (range : GpuAddressRange)
    (data : List Nat) : Option DeviceState :=
  if range.stop.offset ≤ d.alloc then
    some ⟨d.alloc, d.allocs, d.uploads ++ [(range, data)]⟩
  else none
/-- The per-instance upload loop of `LayerBuilder::build` (source lines
551-555): NOTE — faithfully to the source, `set_gpu_data` receives `range`
(the full allocated range) on every iteration, while `range_iter` is shrunk
but never otherwise read. -/
def uploadLoop : DeviceState → GpuAddressRange → GpuAddressRange → Nat →
    List RenderedInstance → Option (DeviceState × GpuAddressRange)
  | d, _, range_iter, _, [] => some (d, range_iter)
  | d, range, range_iter, m, r :: rest =>
    match Device.set_gpu_data d range r.inst.gpu_data with
    | none => none
    | some d' =>
      match range_iter.shrink_left m with
      | none => none
      | some ri => uploadLoop d' range ri m rest
structure DrawCmd where
  geometry : Nat
  num_instances : Nat
  base_address : GpuAddress
deriving DecidableEq, Repr
/-- The per-image body of `LayerBuilder::build`: sort the bucket, allocate
`mem_per_instance * num_instances` words in one call, run the upload loop,
then emit the fill-pass / stroke-pass draw commands. -/
def buildItem (d : DeviceState) (desc : VIDescriptor)
    (insts : List RenderedInstance) :
    Option (DeviceState × List DrawCmd × List DrawCmd) :=
  let sorted := sortInstances insts
  let num_instances := sorted.length % 2 ^ 32
  if desc.mem_per_instance * num_instances < 2 ^ 32 then
    match Device.allocate_gpu_data d (desc.mem_per_instance * num_instances) with
    | none => none
    | some (range, d₁) =>
      match uploadLoop d₁ range range desc.mem_per_instance sorted with
      | none => none
      | some (d₂, _) =>
        some (d₂,
          if desc.contains_fill_ops
            then [⟨desc.geometry, num_instances, range.start⟩] else [],
          if desc.contains_stroke_ops
            then [⟨desc.geometry, num_instances, range.start⟩] else [])
  else none
/-- Iterate the buckets; each bucket's descriptor is the one stored by the
first `add` for that id (the `or_insert` in the source). -/
def buildBuckets (s : LayerBuilderState) :
    DeviceState → List Nat → Option (DeviceState × List DrawCmd × List DrawCmd)
  | d, [] => some (d, [], [])
  | d, id :: ids =>
    match s.log.find? (fun r => r.inst.descriptor.id == id) with
    | none => none
    | some first =>
      match buildItem d first.inst.descriptor (bucketOf s id) with
      | none => none
      | some (d₁, f₁, st₁) =>
        match buildBuckets s d₁ ids with
        | none => none
        | some (d₂, f₂, st₂) => some (d₂, f₁ ++ f₂, st₁ ++ st₂)
/-- Model of `LayerBuilder::build`, visiting buckets in first-insertion id order. -/
def LayerBuilder.build (s : LayerBuilderState) (d : DeviceState) :
    Option (DeviceState × List DrawCmd × List DrawCmd) :=
  buildBuckets s d (s.log.map (fun r => r.inst.descriptor.id)).dedup
/-! Input data for the C1 evaluation: device sub-range placement of instances. -/


/-- C1 failing input: one image, `mem_per_instance = 4`, `z_range = 1`. -/
def bugDesc : VIDescriptor := ⟨0, 1, 4, true, false, 7⟩
def bugInstA : LayerInstance := ⟨bugDesc, [1, 2, 3, 4]⟩
def bugInstB : LayerInstance := ⟨bugDesc, [5, 6, 7, 8]⟩
/-! Theorems on z-offset bookkeeping and the stable per-bucket sort (C6). -/


/-- The log produced by a successful run of `add` calls starting at
z-offset `z`: each instance records the current offset, which then advances
by its image's z-range. -/
def expectedLog (z : Nat) : List LayerInstance → List RenderedInstance
  | [] => []
  | i :: is => ⟨i, z⟩ :: expectedLog (z + i.descriptor.z_range) is
/-- A zero-z-range image: two instances of it record equal z-indices. -/
def flatDesc : VIDescriptor := ⟨1, 0, 4, true, false, 2⟩
def flatInstA : LayerInstance := ⟨flatDesc, [1, 1, 1, 1]⟩
def flatInstB : LayerInstance := ⟨flatDesc, [2, 2, 2, 2]⟩

/-! Section: bit-level facts about the masks

The header mask is the whole top byte: `0xFF000000 = 2^24 * 0xFF`, and the
offset mask is the low 24 bits: `0x00FFFFFF = 2^24 - 1`. -/


theorem header_mask_eq : GPU_ADDR_HEADER_MASK = 2 ^ 24 * 0xFF := by
  decide
theorem offset_mask_eq : GPU_ADDR_OFFSET_MASK = 2 ^ 24 - 1 := by
  decide
/-- Masking a value of the shape `2^24 * q + r` (with `q` one byte and `r`
in the offset field) with the header mask recovers the header `2^24 * q`. -/
theorem land_header (q r : Nat) (hq : q < 2 ^ 8) (hr : r < 2 ^ 24) :
    (2 ^ 24 * q + r) &&& GPU_ADDR_HEADER_MASK = 2 ^ 24 * q := by
  rw [header_mask_eq]
  apply Nat.eq_of_testBit_eq
  intro j
  rw [Nat.testBit_and, Nat.testBit_mul_pow_two_add q hr j,
    Nat.testBit_mul_pow_two, Nat.testBit_mul_pow_two]
  have h255 : (0xFF : Nat) = 2 ^ 8 - 1 := by decide
  rw [h255, Nat.testBit_two_pow_sub_one]
  by_cases hj : j < 24
  · simp [hj, Nat.not_le_of_lt hj]
  · have hj' : 24 ≤ j := Nat.le_of_not_lt hj
    by_cases hj8 : j - 24 < 8
    · simp [hj, hj', hj8]
    · have : q < 2 ^ (j - 24) := by
        calc q < 2 ^ 8 := hq
        _ ≤ 2 ^ (j - 24) := Nat.pow_le_pow_right (by decide) (Nat.le_of_not_lt hj8)
      simp [hj, hj', hj8, Nat.testBit_lt_two_pow this]
/-- A value below `2^24` has no header bits. -/
theorem land_header_zero {r : Nat} (hr : r < 2 ^ 24) :
    r &&& GPU_ADDR_HEADER_MASK = 0 := by
  have h := land_header 0 r (by decide) hr
  simpa using h
/-- Conversely, a `u32` value with no header bits is below `2^24`. -/
theorem lt_of_land_header_zero {x : Nat} (hx : x < 2 ^ 32)
    (h : x &&& GPU_ADDR_HEADER_MASK = 0) : x < 2 ^ 24 := by
  have hdecomp : x = 2 ^ 24 * (x / 2 ^ 24) + x % 2 ^ 24 :=
    (Nat.div_add_mod x (2 ^ 24)).symm
  have hq : x / 2 ^ 24 < 2 ^ 8 := by
    apply Nat.div_lt_of_lt_mul
    calc x < 2 ^ 32 := hx
    _ = 2 ^ 24 * 2 ^ 8 := by decide
  have hr : x % 2 ^ 24 < 2 ^ 24 := Nat.mod_lt _ (by decide)
  have h2 : 2 ^ 24 * (x / 2 ^ 24) = 0 := by
    rw [hdecomp] at h
    rw [← land_header (x / 2 ^ 24) (x % 2 ^ 24) hq hr]
    exact h
  omega
/-- Writing `offset | header` is plain addition when the offset stays in the low
24 bits and the header is a multiple of `2^24`. -/
theorem lor_header (off c : Nat) (hoff : off < 2 ^ 24) :
    off ||| 2 ^ 24 * c = 2 ^ 24 * c + off := by
  rw [Nat.lor_comm]
  exact (Nat.mul_add_lt_is_or hoff c).symm
/-- The offset mask extracts the value modulo `2^24`. -/
theorem land_offset (x : Nat) : x &&& GPU_ADDR_OFFSET_MASK = x % 2 ^ 24 := by
  rw [offset_mask_eq]
  exact Nat.and_pow_two_sub_one_eq_mod x 24
theorem header_global : GPU_ADDR_GLOBAL = 2 ^ 24 * 0 := by decide
theorem header_instance : GPU_ADDR_INSTANCE = 2 ^ 24 * 0x80 := by decide
theorem header_shared : GPU_ADDR_SHARED = 2 ^ 24 * 0x40 := by decide
theorem headerByte_lt (ty : GpuAddressType) : ty.headerByte < 2 ^ 8 := by
  cases ty <;> decide
theorem header_eq_mul (ty : GpuAddressType) :
    ty.header = 2 ^ 24 * ty.headerByte := by
  cases ty <;> decide
/-- Characterization of a successful `GpuAddress::new` on a `u32` offset. -/
theorem new_spec {ty : GpuAddressType} {off : Nat} {a : GpuAddress}
    (h32 : off < 2 ^ 32) (h : GpuAddress.new ty off = some a) :
    off < 2 ^ 24 ∧ a.raw = 2 ^ 24 * ty.headerByte + off := by
  rw [GpuAddress.new] at h
  split at h
  · rename_i hmask
    have hlt : off < 2 ^ 24 := lt_of_land_header_zero h32 hmask
    refine ⟨hlt, ?_⟩
    have := congrArg GpuAddress.raw (Option.some.inj h)
    rw [← this, header_eq_mul, lor_header off ty.headerByte hlt]
  · exact absurd h (by simp)
/-- Decoding `address_type` on a raw value of the canonical shape recovers the tag. -/
theorem address_type_of_canonical (ty : GpuAddressType) (off : Nat)
    (hoff : off < 2 ^ 24) :
    GpuAddress.address_type ⟨2 ^ 24 * ty.headerByte + off⟩ = some ty := by
  have hland : (2 ^ 24 * ty.headerByte + off) &&& GPU_ADDR_HEADER_MASK
      = 2 ^ 24 * ty.headerByte :=
    land_header ty.headerByte off (headerByte_lt ty) hoff
  rw [GpuAddress.address_type]
  cases ty <;> simp_all [GpuAddressType.headerByte] <;> decide
/-- Decoding `offset` on a raw value of the canonical shape recovers the offset. -/
theorem offset_of_canonical (c off : Nat) (hoff : off < 2 ^ 24) :
    GpuAddress.offset ⟨2 ^ 24 * c + off⟩ = off := by
  rw [GpuAddress.offset, land_offset, Nat.mul_add_mod, Nat.mod_eq_of_lt hoff]
/-- C3 (amended): for `u32` offsets clear of the full 8-bit header mask,
`GpuAddress::new` succeeds and the `(address_type, offset)` pair round-trips. -/
theorem gpu_address_roundtrip (ty : GpuAddressType) (off : Nat)
    (h32 : off < 2 ^ 32) (h : off &&& GPU_ADDR_HEADER_MASK = 0) :
    ∃ a, GpuAddress.new ty off = some a ∧
      a.address_type = some ty ∧ a.offset = off := by
  have hlt : off < 2 ^ 24 := lt_of_land_header_zero h32 h
  have hnew : GpuAddress.new ty off = some ⟨off ||| ty.header⟩ := by
    rw [GpuAddress.new, if_pos h]
  refine ⟨⟨off ||| ty.header⟩, hnew, ?_, ?_⟩
  · rw [header_eq_mul, lor_header off ty.headerByte hlt]
    exact address_type_of_canonical ty off hlt
  · rw [header_eq_mul, lor_header off ty.headerByte hlt]
    exact offset_of_canonical ty.headerByte off hlt
/-- C3 witness: concrete round-trip through the shared space at offset 5. -/
theorem gpu_address_roundtrip_witness :
    (5 : Nat) < 2 ^ 32 ∧ (5 : Nat) &&& GPU_ADDR_HEADER_MASK = 0 ∧
    ∃ a, GpuAddress.new .Shared 5 = some a ∧
      a.address_type = some .Shared ∧ a.offset = 5 :=
  ⟨by decide, by decide,
    gpu_address_roundtrip .Shared 5 (by decide) (by decide)⟩
/-- C3 counterexample: the offset `0x01000000` has no bits in the 2-bit
space-tag positions (`0xC0000000`), yet `GpuAddress::new` fails on it: the
assertion uses the full 8-bit header mask `0xFF000000`, not the 2-bit tag
mask. -/
theorem gpu_address_two_bit_mask_counterexample :
    (0x01000000 : Nat) &&& 0xC0000000 = 0 ∧
    GpuAddress.new .Global 0x01000000 = none := by
  constructor
  · decide
  · decide
/-- C2 (amended): the four constructors fail fatally exactly when the given
offset overlaps the reserved header bits; `add_assign` asserts only on the
increment value — when the addition result carries into the header bits no
assertion fires and the result is silently masked back to the offset field. -/
theorem gpu_address_guard_behavior :
    (∀ ty off, off &&& GPU_ADDR_HEADER_MASK ≠ 0 → GpuAddress.new ty off = none) ∧
    (∀ off, off &&& GPU_ADDR_HEADER_MASK ≠ 0 → GpuAddress.global off = none) ∧
    (∀ off, off &&& GPU_ADDR_HEADER_MASK ≠ 0 → GpuAddress.instanceAddr off = none) ∧
    (∀ off, off &&& GPU_ADDR_HEADER_MASK ≠ 0 → GpuAddress.shared off = none) ∧
    (∀ a val, val &&& GPU_ADDR_HEADER_MASK ≠ 0 → GpuAddress.add_assign a val = none) ∧
    (∀ (a : GpuAddress) val, val &&& GPU_ADDR_HEADER_MASK = 0 →
      a.raw + val < 2 ^ 32 →
      GpuAddress.add_assign a val = some ⟨(a.raw + val) &&& GPU_ADDR_OFFSET_MASK⟩) := by
  refine ⟨?_, ?_, ?_, ?_, ?_, ?_⟩
  · intro ty off h
    rw [GpuAddress.new, if_neg h]
  · intro off h
    rw [GpuAddress.global, if_neg h]
  · intro off h
    rw [GpuAddress.instanceAddr, if_neg h]
  · intro off h
    rw [GpuAddress.shared, if_neg h]
  · intro a val h
    rw [GpuAddress.add_assign, if_neg h]
  · intro a val h h32
    rw [GpuAddress.add_assign, if_pos h, if_pos h32]
/-- C2 witness: a constructor rejection and a silent-mask increment at
concrete inputs. -/
theorem gpu_address_guard_behavior_witness :
    ((0x01000000 : Nat) &&& GPU_ADDR_HEADER_MASK ≠ 0 ∧
      GpuAddress.new .Global 0x01000000 = none) ∧
    ((1 : Nat) &&& GPU_ADDR_HEADER_MASK = 0 ∧
      GpuAddress.add_assign ⟨0x00FFFFFF⟩ 1 =
        some ⟨(0x00FFFFFF + 1) &&& GPU_ADDR_OFFSET_MASK⟩) :=
  ⟨⟨by decide, gpu_address_guard_behavior.1 .Global 0x01000000 (by decide)⟩,
    ⟨by decide,
      gpu_address_guard_behavior.2.2.2.2.2 ⟨0x00FFFFFF⟩ 1 (by decide) (by decide)⟩⟩
/-- C2 counterexample: start from the legitimately constructed global address
at offset `0x00FFFFFF`; incrementing by 1 makes the sum `0x01000000`, which
overlaps the reserved header bits, yet `add_assign` does not fail — it
silently masks the sum back to offset 0. -/
theorem gpu_address_carry_counterexample :
    GpuAddress.global 0x00FFFFFF = some ⟨0x00FFFFFF⟩ ∧
    (0x00FFFFFF + 1) &&& GPU_ADDR_HEADER_MASK ≠ 0 ∧
    GpuAddress.add_assign ⟨0x00FFFFFF⟩ 1 = some ⟨0⟩ := by
  refine ⟨by decide, by decide, by decide⟩
/-- C9: on an Instance- or Shared-tagged address, `add_assign` erases the
space tag — the result always decodes as `Global` — and consequently
`shrink_left` retags the start of an Instance/Shared range as `Global`. -/
theorem add_assign_erases_tag (ty : GpuAddressType)
    (hty : ty = .Instance ∨ ty = .Shared) (off val : Nat)
    (hoff32 : off < 2 ^ 32) (hoff : off &&& GPU_ADDR_HEADER_MASK = 0)
    (hval32 : val < 2 ^ 32) (hval : val &&& GPU_ADDR_HEADER_MASK = 0)
    (a : GpuAddress) (ha : GpuAddress.new ty off = some a) :
    (∃ r, a.add_assign val = some r ∧ r.address_type = some .Global) ∧
    (∀ (stop : GpuAddress) (amount : Nat), amount < 2 ^ 32 →
      amount &&& GPU_ADDR_HEADER_MASK = 0 →
      a.offset + amount ≤ stop.offset →
      ∃ rg, GpuAddressRange.shrink_left ⟨a, stop⟩ amount = some rg ∧
        rg.start.address_type = some .Global) := by
  obtain ⟨hofflt, hraw⟩ := new_spec hoff32 ha
  have hvallt : val < 2 ^ 24 := lt_of_land_header_zero hval32 hval
  have hbyte : ty.headerByte ≤ 0x80 := by cases ty <;> decide
  have haoff : a.offset = off := by
    have := offset_of_canonical ty.headerByte off hofflt
    rw [← hraw] at this
    exact this
  have hglobal : ∀ v, v < 2 ^ 32 → v &&& GPU_ADDR_HEADER_MASK = 0 →
      ∃ r, a.add_assign v = some r ∧ r.address_type = some .Global := by
    intro v hv32 hv
    have hvlt : v < 2 ^ 24 := lt_of_land_header_zero hv32 hv
    have hsum32 : a.raw + v < 2 ^ 32 := by
      rw [hraw]
      have := headerByte_lt ty
      omega
    refine ⟨⟨(a.raw + v) &&& GPU_ADDR_OFFSET_MASK⟩, ?_, ?_⟩
    · rw [GpuAddress.add_assign, if_pos hv, if_pos hsum32]
    · have hres : (a.raw + v) &&& GPU_ADDR_OFFSET_MASK = (off + v) % 2 ^ 24 := by
        rw [hraw, land_offset, Nat.add_assoc, Nat.mul_add_mod]
      have hreslt : (off + v) % 2 ^ 24 < 2 ^ 24 := Nat.mod_lt _ (by decide)
      rw [GpuAddress.address_type]
      have h0 : ((a.raw + v) &&& GPU_ADDR_OFFSET_MASK) &&& GPU_ADDR_HEADER_MASK = 0 := by
        rw [hres]
        exact land_header_zero hreslt
      simp only [h0]
      rw [if_neg (by decide), if_neg (by decide)]
      decide
  refine ⟨hglobal val hval32 hval, ?_⟩
  intro stop amount ham32 ham hle
  obtain ⟨r, hr, hrty⟩ := hglobal amount ham32 ham
  refine ⟨⟨r, stop⟩, ?_, hrty⟩
  rw [GpuAddressRange.shrink_left]
  dsimp only
  rw [if_neg (by omega), if_neg (by omega), hr]
/-- C9 witness: instance address at offset 8, incremented by 4; likewise a
range `[instance 8, instance 16)` shrunk by 4. -/
theorem add_assign_erases_tag_witness :
    ((8 : Nat) < 2 ^ 32 ∧ (8 : Nat) &&& GPU_ADDR_HEADER_MASK = 0 ∧
      (4 : Nat) < 2 ^ 32 ∧ (4 : Nat) &&& GPU_ADDR_HEADER_MASK = 0 ∧
      GpuAddress.new .Instance 8 = some ⟨0x80000008⟩) ∧
    ((∃ r, GpuAddress.add_assign ⟨0x80000008⟩ 4 = some r ∧
        r.address_type = some .Global) ∧
      (∀ (stop : GpuAddress) (amount : Nat), amount < 2 ^ 32 →
        amount &&& GPU_ADDR_HEADER_MASK = 0 →
        GpuAddress.offset ⟨0x80000008⟩ + amount ≤ stop.offset →
        ∃ rg, GpuAddressRange.shrink_left ⟨⟨0x80000008⟩, stop⟩ amount = some rg ∧
          rg.start.address_type = some .Global)) :=
  ⟨⟨by decide, by decide, by decide, by decide, by decide⟩,
    add_assign_erases_tag .Instance (Or.inl rfl) 8 4 (by decide) (by decide)
      (by decide) (by decide) ⟨0x80000008⟩ (by decide)⟩
theorem alignment_zero_iff (t : DataType) : t.alignment = 0 ↔ t.size = 0 := by
  rw [DataType.alignment]
  rcases t with ⟨s, n⟩
  match n with
  | 0 => simp
  | 1 => simp
  | 2 => simp
  | 3 => simp
  | (m + 4) =>
    simp only
    constructor
    · intro h
      omega
    · intro h
      omega
/-- The aligned offset is a multiple of the alignment. -/
theorem adjust_aligned (s al : Nat) (hal : 0 < al) :
    (s + allocAdjust s al) % al = 0 := by
  rw [allocAdjust]
  rcases h : s % al with _ | n
  · simpa [h]
  · have hlt : n + 1 < al := h ▸ Nat.mod_lt _ hal
    have hdecomp : al * (s / al) + (n + 1) = s := by
      rw [← h]
      exact Nat.div_add_mod s al
    have hmul : al * (s / al + 1) = al * (s / al) + al := by
      rw [Nat.mul_add, Nat.mul_one]
    simp only
    have hs : s + (al - (n + 1)) = al * (s / al + 1) := by omega
    rw [hs, Nat.mul_mod_right]
/-- What one successful `alloc` guarantees. -/
theorem alloc_spec {l : MemoryLayout} {t : DataType} {a : GpuAddress}
    {l' : MemoryLayout} (h : l.alloc t = some (a, l')) :
    0 < t.alignment ∧ 0 < t.size ∧ l.size ≤ a.offset ∧
    a.offset % t.alignment = 0 ∧ l'.size = a.offset + t.size ∧
    l'.mem_type = l.mem_type ∧ l'.size < 2 ^ 32 := by
  rw [MemoryLayout.alloc] at h
  split at h
  · exact absurd h (by simp)
  · rename_i halign
    have halpos : 0 < t.alignment := Nat.pos_of_ne_zero halign
    have hsize : 0 < t.size := by
      rcases Nat.eq_zero_or_pos t.size with h0 | h0
      · exact absurd ((alignment_zero_iff t).mpr h0) halign
      · exact h0
    split at h
    · rename_i hfit
      split at h
      · exact absurd h (by simp)
      · rename_i addr hnew
        split at h
        · rename_i hfit2
          obtain ⟨ha, hl⟩ := Prod.mk.injEq .. ▸ Option.some.inj h
          obtain ⟨hofflt, hraw⟩ := new_spec hfit hnew
          have haoff : addr.offset = l.size + allocAdjust l.size t.alignment := by
            have := offset_of_canonical l.mem_type.headerByte _ hofflt
            rw [← hraw] at this
            exact this
          subst ha
          refine ⟨halpos, hsize, ?_, ?_, ?_, ?_, ?_⟩
          · rw [haoff]
            exact Nat.le_add_right _ _
          · rw [haoff]
            exact adjust_aligned l.size t.alignment halpos
          · rw [← hl, haoff]
          · rw [← hl]
          · rw [← hl]
            exact hfit2
        · exact absurd h (by simp)
    · exact absurd h (by simp)
/-- The run of offsets produced by `allocList`, starting from any layout
state: every offset is at least the starting size, consecutive offsets are
strictly increasing, and each offset is aligned for its requested type. -/
theorem allocList_spec :
    ∀ (tys : List DataType) (l : MemoryLayout) (offs : List GpuAddress)
      (l' : MemoryLayout), l.allocList tys = some (offs, l') →
      (∀ a ∈ offs, l.size ≤ a.offset) ∧
      offs.Chain' (fun a b => a.offset < b.offset) ∧
      (∀ p ∈ offs.zip tys, p.1.offset % p.2.alignment = 0)
  | [], l, offs, l', h => by
    rw [MemoryLayout.allocList] at h
    obtain ⟨h1, _⟩ := Prod.mk.injEq .. ▸ Option.some.inj h
    subst h1
    simp
  | t :: ts, l, offs, l', h => by
    rw [MemoryLayout.allocList] at h
    split at h
    · exact absurd h (by simp)
    · rename_i a l₁ halloc
      split at h
      · exact absurd h (by simp)
      · rename_i as l₂ hrest
        obtain ⟨h1, _⟩ := Prod.mk.injEq .. ▸ Option.some.inj h
        subst h1
        obtain ⟨hge, hchain, halign⟩ := allocList_spec ts l₁ as l₂ hrest
        obtain ⟨_, hsize, hle, hal, hl₁, _, _⟩ := alloc_spec halloc
        refine ⟨?_, ?_, ?_⟩
        · intro x hx
          rcases List.mem_cons.mp hx with hx | hx
          · subst hx
            exact hle
          · have := hge x hx
            omega
        · rw [List.chain'_cons']
          refine ⟨?_, hchain⟩
          intro y hy
          have hmem : y ∈ as := by
            rcases as with _ | ⟨z, zs⟩
            · simp at hy
            · have hzy : z = y := by simpa using hy
              rw [← hzy]
              exact List.mem_cons_self _ _
          have := hge y hmem
          omega
        · intro p hp
          rcases List.mem_cons.mp ((List.zip_cons_cons .. ▸ hp)) with hp' | hp'
          · subst hp'
            exact hal
          · exact halign p hp'
/-- C5: from a fresh layout, any successful sequence of `alloc` calls yields
strictly increasing member offsets, each a multiple of its type's alignment,
and replaying the same call sequence yields identical offsets. -/
theorem memory_layout_alloc_props (mt : GpuAddressType) (tys : List DataType)
    (offs : List GpuAddress) (l' : MemoryLayout)
    (h : (MemoryLayout.new mt).allocList tys = some (offs, l')) :
    offs.Chain' (fun a b => a.offset < b.offset) ∧
    (∀ p ∈ offs.zip tys, p.1.offset % p.2.alignment = 0) ∧
    (∀ offs₂ l₂, (MemoryLayout.new mt).allocList tys = some (offs₂, l₂) →
      offs₂ = offs) := by
  obtain ⟨_, hchain, halign⟩ := allocList_spec tys (MemoryLayout.new mt) offs l' h
  refine ⟨hchain, halign, ?_⟩
  intro offs₂ l₂ h₂
  rw [h] at h₂
  exact (Prod.mk.injEq .. ▸ Option.some.inj h₂).1.symm
/-- C5 witness: a float, a vec3 and a transform_2d allocated in the shared
space — offsets 0, 4, 8, strictly increasing and aligned. -/
theorem memory_layout_alloc_props_witness :
    ((MemoryLayout.new .Shared).allocList sampleTypes =
      some (sampleOffsets, sampleLayout)) ∧
    sampleOffsets.Chain' (fun a b => a.offset < b.offset) ∧
    (∀ p ∈ sampleOffsets.zip sampleTypes, p.1.offset % p.2.alignment = 0) ∧
    (∀ offs₂ l₂, (MemoryLayout.new .Shared).allocList sampleTypes =
      some (offs₂, l₂) → offs₂ = sampleOffsets) :=
  ⟨by decide,
    memory_layout_alloc_props .Shared sampleTypes sampleOffsets sampleLayout
      (by decide)⟩
/-- C10: a `DataType` of size 0 has alignment 0, and `alloc` on it always
fails fatally (division by zero in `size % alignment`); a successful `alloc`
implies the type's size is at least 1. -/
theorem alloc_size_zero_fatal :
    (∀ t : DataType, t.size = 0 → t.alignment = 0) ∧
    (∀ (l : MemoryLayout) (t : DataType), t.size = 0 → l.alloc t = none) ∧
    (∀ (l : MemoryLayout) (t : DataType) (r : GpuAddress × MemoryLayout),
      l.alloc t = some r → 1 ≤ t.size) := by
  refine ⟨?_, ?_, ?_⟩
  · intro t ht
    exact (alignment_zero_iff t).mpr ht
  · intro l t ht
    rw [MemoryLayout.alloc, if_pos ((alignment_zero_iff t).mpr ht)]
  · intro l t r h
    rcases r with ⟨a, l'⟩
    exact (alloc_spec h).2.1
/-- C10 witness: the zero-sized float-scalar type is rejected by `alloc` on a
fresh instance layout. -/
theorem alloc_size_zero_fatal_witness :
    (DataType.mk .F32 0).size = 0 ∧
    (DataType.mk .F32 0).alignment = 0 ∧
    (MemoryLayout.new .Instance).alloc ⟨.F32, 0⟩ = none :=
  ⟨by decide, alloc_size_zero_fatal.1 ⟨.F32, 0⟩ (by decide),
    alloc_size_zero_fatal.2.1 (MemoryLayout.new .Instance) ⟨.F32, 0⟩ (by decide)⟩
/-- A raw value in the low 24 bits always decodes as a `Global` address. -/
theorem address_type_of_low {x : Nat} (hx : x < 2 ^ 24) :
    GpuAddress.address_type ⟨x⟩ = some .Global := by
  have h0 : x &&& GPU_ADDR_HEADER_MASK = 0 := land_header_zero hx
  rw [GpuAddress.address_type]
  simp only [h0]
  decide
/-- Overwriting the suffix `old` of `buf ++ old` word-by-word with an
equal-length block `new` succeeds and yields `buf ++ new`. -/
theorem setWords_append :
    ∀ (new old buf : List Nat), old.length = new.length →
      setWords (buf ++ old) buf.length new = some (buf ++ new)
  | [], old, buf, h => by
    have : old = [] := List.eq_nil_of_length_eq_zero h
    subst this
    rw [setWords]
  | x :: xs, old, buf, h => by
    rcases old with _ | ⟨y, ys⟩
    · simp at h
    · rw [setWords, if_pos (by simp)]
      have hset : (buf ++ y :: ys).set buf.length x = (buf ++ [x]) ++ ys := by
        rw [List.set_append_right _ _ (Nat.le_refl _), Nat.sub_self]
        simp
      rw [hset]
      have hlen : (buf ++ [x]).length = buf.length + 1 := by simp
      rw [← hlen]
      have hrec := setWords_append xs ys (buf ++ [x]) (by simpa using h)
      rw [hrec]
      simp
/-- C8: `push` returns the global address equal to the buffer length before
the write, and an immediate `set` at that address with an equal-sized block
replaces exactly the pushed words — the result is the old buffer followed by
the new block, every other word unchanged. -/
theorem push_set_roundtrip (m : GpuMemory) (b b' : List Nat)
    (hlen : m.len < 2 ^ 24) (hb4 : b.length % 4 = 0)
    (hlen' : b'.length = b.length) :
    ∃ a m₁, m.push b = some (a, m₁) ∧ a.raw = m.len ∧
      a.address_type = some .Global ∧
      m₁.set a b' = some ⟨m.buffer ++ b'⟩ := by
  have hlen32 : m.buffer.length % 2 ^ 32 = m.buffer.length :=
    Nat.mod_eq_of_lt (lt_trans hlen (by norm_num))
  have hl : m.buffer.length < 2 ^ 24 := hlen
  have hglobal : GpuAddress.global (m.buffer.length % 2 ^ 32) =
      some ⟨m.buffer.length⟩ := by
    rw [GpuAddress.global, hlen32, if_pos (land_header_zero hl)]
  refine ⟨⟨m.buffer.length⟩, ⟨m.buffer ++ b⟩, ?_, rfl, ?_, ?_⟩
  · rw [GpuMemory.push, if_pos hb4, hglobal]
  · exact address_type_of_low hlen
  · rw [GpuMemory.set]
    have := setWords_append b' b m.buffer (hlen'.symm ▸ rfl)
    rw [this]
    rfl
/-- C8 witness: pushing `[1,2,3,4]` onto `[9,9]` and re-setting with
`[5,6,7,8]` at the returned address. -/
theorem push_set_roundtrip_witness :
    (GpuMemory.mk [9, 9]).len < 2 ^ 24 ∧ (4 : Nat) % 4 = 0 ∧
    ∃ a m₁, (GpuMemory.mk [9, 9]).push [1, 2, 3, 4] = some (a, m₁) ∧
      a.raw = (GpuMemory.mk [9, 9]).len ∧
      a.address_type = some .Global ∧
      m₁.set a [5, 6, 7, 8] = some ⟨[9, 9] ++ [5, 6, 7, 8]⟩ :=
  ⟨by decide, by decide,
    push_set_roundtrip ⟨[9, 9]⟩ [1, 2, 3, 4] [5, 6, 7, 8]
      (by decide) (by decide) (by decide)⟩
/-- C4: `clone_instance` shares the immutable base but deep-copies the
instance memory: the clone's buffer initially equals the original's, and any
`GpuMemory::set` on the clone leaves every word of the original's buffer
unchanged — and vice versa. -/
theorem clone_instance_isolation (w : InstanceStore) (i : InstanceRef)
    (hi : i.gpu_data < w.bufs.length) :
    ((clone_instance w i).2.base = i.base) ∧
    ((clone_instance w i).1.bufs.getD (clone_instance w i).2.gpu_data ⟨[]⟩ =
      w.bufs.getD i.gpu_data ⟨[]⟩) ∧
    (∀ a block w', instance_set (clone_instance w i).1 (clone_instance w i).2
        a block = some w' →
      w'.bufs.getD i.gpu_data ⟨[]⟩ = w.bufs.getD i.gpu_data ⟨[]⟩) ∧
    (∀ a block w', instance_set (clone_instance w i).1 i a block = some w' →
      w'.bufs.getD (clone_instance w i).2.gpu_data ⟨[]⟩ =
        (clone_instance w i).1.bufs.getD (clone_instance w i).2.gpu_data ⟨[]⟩) := by
  have hne : i.gpu_data ≠ w.bufs.length := Nat.ne_of_lt hi
  have hcopy : (w.bufs ++ [w.bufs.getD i.gpu_data ⟨[]⟩]).getD w.bufs.length ⟨[]⟩ =
      w.bufs.getD i.gpu_data ⟨[]⟩ := by
    rw [List.getD_eq_getElem?_getD, List.getElem?_concat_length]
    rfl
  have hleft : ∀ m : GpuMemory,
      (w.bufs ++ [m]).getD i.gpu_data ⟨[]⟩ = w.bufs.getD i.gpu_data ⟨[]⟩ := by
    intro m
    rw [List.getD_eq_getElem?_getD, List.getD_eq_getElem?_getD,
      List.getElem?_append_left hi]
  refine ⟨rfl, hcopy, ?_, ?_⟩
  · intro a block w' hset
    rw [instance_set] at hset
    split at hset
    · exact absurd hset (by simp)
    · rename_i m hm
      have hw' : w' = ⟨(w.bufs ++ [w.bufs.getD i.gpu_data ⟨[]⟩]).set
          w.bufs.length m⟩ := (Option.some.inj hset).symm
      subst hw'
      show ((w.bufs ++ [w.bufs.getD i.gpu_data ⟨[]⟩]).set w.bufs.length m).getD
          i.gpu_data ⟨[]⟩ = _
      rw [List.getD_eq_getElem?_getD, List.getElem?_set_ne (Ne.symm hne),
        ← List.getD_eq_getElem?_getD]
      exact hleft _
  · intro a block w' hset
    rw [instance_set] at hset
    split at hset
    · exact absurd hset (by simp)
    · rename_i m hm
      have hw' : w' = ⟨(w.bufs ++ [w.bufs.getD i.gpu_data ⟨[]⟩]).set
          i.gpu_data m⟩ := (Option.some.inj hset).symm
      subst hw'
      show ((w.bufs ++ [w.bufs.getD i.gpu_data ⟨[]⟩]).set i.gpu_data m).getD
          w.bufs.length ⟨[]⟩ = _
      rw [List.getD_eq_getElem?_getD, List.getElem?_set_ne hne,
        ← List.getD_eq_getElem?_getD]
      rfl
/-- C4 witness: a two-buffer store; the instance owns buffer 0 holding
`[1,2,3,4]`. -/
theorem clone_instance_isolation_witness :
    (0 : Nat) < (InstanceStore.mk [⟨[1, 2, 3, 4]⟩, ⟨[7]⟩]).bufs.length ∧
    ((clone_instance ⟨[⟨[1, 2, 3, 4]⟩, ⟨[7]⟩]⟩ ⟨5, 0⟩).2.base = 5 ∧
      ((clone_instance ⟨[⟨[1, 2, 3, 4]⟩, ⟨[7]⟩]⟩ ⟨5, 0⟩).1.bufs.getD
          (clone_instance ⟨[⟨[1, 2, 3, 4]⟩, ⟨[7]⟩]⟩ ⟨5, 0⟩).2.gpu_data ⟨[]⟩ =
        (InstanceStore.mk [⟨[1, 2, 3, 4]⟩, ⟨[7]⟩]).bufs.getD 0 ⟨[]⟩) ∧
      (∀ a block w', instance_set (clone_instance ⟨[⟨[1, 2, 3, 4]⟩, ⟨[7]⟩]⟩ ⟨5, 0⟩).1
          (clone_instance ⟨[⟨[1, 2, 3, 4]⟩, ⟨[7]⟩]⟩ ⟨5, 0⟩).2 a block = some w' →
        w'.bufs.getD 0 ⟨[]⟩ =
          (InstanceStore.mk [⟨[1, 2, 3, 4]⟩, ⟨[7]⟩]).bufs.getD 0 ⟨[]⟩) ∧
      (∀ a block w', instance_set (clone_instance ⟨[⟨[1, 2, 3, 4]⟩, ⟨[7]⟩]⟩ ⟨5, 0⟩).1
          ⟨5, 0⟩ a block = some w' →
        w'.bufs.getD (clone_instance ⟨[⟨[1, 2, 3, 4]⟩, ⟨[7]⟩]⟩ ⟨5, 0⟩).2.gpu_data ⟨[]⟩ =
          (clone_instance ⟨[⟨[1, 2, 3, 4]⟩, ⟨[7]⟩]⟩ ⟨5, 0⟩).1.bufs.getD
            (clone_instance ⟨[⟨[1, 2, 3, 4]⟩, ⟨[7]⟩]⟩ ⟨5, 0⟩).2.gpu_data ⟨[]⟩)) :=
  ⟨by decide, clone_instance_isolation ⟨[⟨[1, 2, 3, 4]⟩, ⟨[7]⟩]⟩ ⟨5, 0⟩ (by decide)⟩
theorem runFillCmds_eq_some :
    ∀ l : List TessResult, (∀ r ∈ l, r = .success) → runFillCmds l = some ()
  | [], _ => rfl
  | .success :: rest, h =>
    runFillCmds_eq_some rest (fun r hr => h r (List.mem_cons_of_mem _ hr))
  | .failure :: _, h => absurd (h .failure (List.mem_cons_self _ _)) (by simp)
theorem runFillCmds_eq_none :
    ∀ l : List TessResult, (∃ r ∈ l, r = .failure) → runFillCmds l = none
  | [], h => absurd h (by simp)
  | .success :: rest, h => by
    rw [runFillCmds]
    refine runFillCmds_eq_none rest ?_
    obtain ⟨r, hr, hfail⟩ := h
    rcases List.mem_cons.mp hr with h1 | h1
    · rw [h1] at hfail
      exact absurd hfail (by simp)
    · exact ⟨r, h1, hfail⟩
  | .failure :: _, _ => rfl
/-- C7: a tessellation failure on any fill command makes `build` fail
fatally; tessellation failures on stroke commands are silently ignored and
`build` completes normally; there is no recoverable-error outcome — only
completion or a fatal abort. -/
theorem build_fill_fatal_stroke_ignored (fill_cmds stroke_cmds : List TessResult) :
    ((∀ r ∈ fill_cmds, r = .success) →
      buildRun fill_cmds stroke_cmds =
        some (decide (0 < fill_cmds.length), decide (0 < stroke_cmds.length))) ∧
    ((∃ r ∈ fill_cmds, r = .failure) → buildRun fill_cmds stroke_cmds = none) := by
  constructor
  · intro h
    rw [buildRun, runFillCmds_eq_some]
    intro r hr
    exact h r (List.mem_reverse.mp hr)
  · intro h
    rw [buildRun, runFillCmds_eq_none]
    obtain ⟨r, hr, hfail⟩ := h
    exact ⟨r, List.mem_reverse.mpr hr, hfail⟩
/-- C7 witness: one successful fill plus a failing stroke still builds; one
failing fill aborts even with no strokes. -/
theorem build_fill_fatal_stroke_ignored_witness :
    ((∀ r ∈ [TessResult.success], r = .success) ∧
      buildRun [.success] [.failure] = some (true, true)) ∧
    ((∃ r ∈ [TessResult.failure], r = .failure) ∧
      buildRun [.failure] [] = none) :=
  ⟨⟨by decide,
      (build_fill_fatal_stroke_ignored [.success] [.failure]).1 (by decide)⟩,
    ⟨by decide,
      (build_fill_fatal_stroke_ignored [.failure] []).2 (by decide)⟩⟩
/-- C1 (code bug): adding two instances of one image (`mem_per_instance = 4`)
and building performs a single `allocate_gpu_data` of `4 × 2 = 8` words
(trace `[8]`), but both `set_gpu_data` calls receive the full range
`[0, 8)` — the loop shrinks `range_iter` yet passes `range` — so the second
instance is uploaded at base offset 0, not at the claimed sub-range
`[base + 4, base + 8)`. -/
theorem layer_build_second_instance_not_at_subrange :
    LayerBuilder.addAll ⟨[], 0⟩ [bugInstA, bugInstB] =
      some ⟨[⟨bugInstA, 0⟩, ⟨bugInstB, 1⟩], 2⟩ ∧
    LayerBuilder.build ⟨[⟨bugInstA, 0⟩, ⟨bugInstB, 1⟩], 2⟩ ⟨0, [], []⟩ =
      some (⟨8, [8],
          [(⟨⟨0⟩, ⟨8⟩⟩, [1, 2, 3, 4]), (⟨⟨0⟩, ⟨8⟩⟩, [5, 6, 7, 8])]⟩,
        [⟨7, 2, ⟨0⟩⟩], []) ∧
    (⟨⟨0⟩, ⟨8⟩⟩ : GpuAddressRange).start.offset ≠
      0 + 1 * bugDesc.mem_per_instance := by
  refine ⟨by decide, ?_, by decide⟩
  simp [LayerBuilder.build, buildBuckets, buildItem, sortInstances, bucketOf,
    bugInstA, bugInstB, bugDesc, Device.allocate_gpu_data, Device.set_gpu_data,
    uploadLoop, GpuAddress.global, GpuAddressRange.shrink_left,
    GpuAddress.add_assign, GpuAddress.offset, List.mergeSort, List.merge,
    GPU_ADDR_HEADER_MASK, GPU_ADDR_OFFSET_MASK, zLE]
  decide
theorem addAll_expectedLog :
    ∀ (l : List LayerInstance) (log₀ : List RenderedInstance) (z : Nat)
      (s : LayerBuilderState),
      LayerBuilder.addAll ⟨log₀, z⟩ l = some s →
      s.log = log₀ ++ expectedLog z l
  | [], log₀, z, s, h => by
    rw [LayerBuilder.addAll] at h
    rw [← Option.some.inj h, expectedLog]
    simp
  | i :: is, log₀, z, s, h => by
    rw [LayerBuilder.addAll, LayerBuilder.add] at h
    by_cases hc : z + i.descriptor.z_range < 2 ^ 32
    · rw [if_pos hc] at h
      have hrec := addAll_expectedLog is (log₀ ++ [⟨i, z⟩])
        (z + i.descriptor.z_range) s h
      rw [hrec, expectedLog]
      simp
    · rw [if_neg hc] at h
      exact Option.noConfusion h
theorem expectedLog_map :
    ∀ (l : List LayerInstance) (z : Nat),
      (expectedLog z l).map (fun r => r.inst) = l
  | [], _ => rfl
  | i :: is, z => by
    rw [expectedLog, List.map_cons, expectedLog_map is]
theorem expectedLog_ge :
    ∀ (l : List LayerInstance) (z : Nat) (r : RenderedInstance),
      r ∈ expectedLog z l → z ≤ r.z_index
  | [], _, _, h => by simp [expectedLog] at h
  | i :: is, z, r, h => by
    rw [expectedLog] at h
    rcases List.mem_cons.mp h with h1 | h1
    · subst h1
      exact Nat.le_refl _
    · have := expectedLog_ge is (z + i.descriptor.z_range) r h1
      omega
theorem expectedLog_chain :
    ∀ (l : List LayerInstance) (z : Nat),
      (expectedLog z l).Chain'
        (fun a b => b.z_index = a.z_index + a.inst.descriptor.z_range)
  | [], _ => by simp [expectedLog]
  | [_], _ => by simp [expectedLog]
  | i :: j :: is, z => by
    rw [expectedLog, expectedLog, List.chain'_cons]
    exact ⟨rfl, expectedLog_chain (j :: is) (z + i.descriptor.z_range)⟩
theorem expectedLog_pairwise :
    ∀ (l : List LayerInstance) (z : Nat),
      (expectedLog z l).Pairwise
        (fun a b => a.z_index + a.inst.descriptor.z_range ≤ b.z_index)
  | [], _ => by simp [expectedLog]
  | i :: is, z => by
    rw [expectedLog, List.pairwise_cons]
    constructor
    · intro r hr
      exact expectedLog_ge is (z + i.descriptor.z_range) r hr
    · exact expectedLog_pairwise is (z + i.descriptor.z_range)
theorem zLE_trans (a b c : RenderedInstance) :
    zLE a b → zLE b c → zLE a c := by
  simp only [zLE, decide_eq_true_eq]
  omega
theorem zLE_total (a b : RenderedInstance) : zLE a b || zLE b a := by
  simp only [zLE, Bool.or_eq_true, decide_eq_true_eq]
  omega
/-- C6: every `add` records the current layer z-offset and advances it by
the image's z-range, so the half-open z intervals of successively added
instances are pairwise disjoint; at build time each bucket is sorted by
recorded z-index ascending with a stable sort — a permutation that keeps
the relative submission order of equal-z instances. -/
theorem layer_z_disjoint_and_stable_sort (l : List LayerInstance)
    (s : LayerBuilderState) (h : LayerBuilder.addAll ⟨[], 0⟩ l = some s) :
    s.log = expectedLog 0 l ∧
    s.log.map (fun r => r.inst) = l ∧
    s.log.Chain' (fun a b => b.z_index = a.z_index + a.inst.descriptor.z_range) ∧
    s.log.Pairwise (fun a b => a.z_index + a.inst.descriptor.z_range ≤ b.z_index) ∧
    ∀ id : Nat,
      (sortInstances (bucketOf s id)).Pairwise
        (fun a b => a.z_index ≤ b.z_index) ∧
      (sortInstances (bucketOf s id)).Perm (bucketOf s id) ∧
      (∀ a b : RenderedInstance, a.z_index = b.z_index →
        [a, b].Sublist (bucketOf s id) →
        [a, b].Sublist (sortInstances (bucketOf s id))) := by
  have hlog : s.log = expectedLog 0 l := by
    have := addAll_expectedLog l [] 0 s h
    simpa using this
  refine ⟨hlog, ?_, ?_, ?_, ?_⟩
  · rw [hlog]
    exact expectedLog_map l 0
  · rw [hlog]
    exact expectedLog_chain l 0
  · rw [hlog]
    exact expectedLog_pairwise l 0
  · intro id
    refine ⟨?_, ?_, ?_⟩
    · have hs := List.sorted_mergeSort zLE_trans zLE_total (bucketOf s id)
      exact hs.imp (fun hab => by
        simpa [zLE, decide_eq_true_eq] using hab)
    · exact List.mergeSort_perm (bucketOf s id) zLE
    · intro a b hz hsub
      refine List.pair_sublist_mergeSort zLE_trans zLE_total ?_ hsub
      simp only [zLE, decide_eq_true_eq]
      omega
/-- C6 witness: two equal-depth instances of one image. -/
theorem layer_z_disjoint_and_stable_sort_witness :
    (LayerBuilder.addAll ⟨[], 0⟩ [flatInstA, flatInstB] =
      some ⟨[⟨flatInstA, 0⟩, ⟨flatInstB, 0⟩], 0⟩) ∧
    ((LayerBuilderState.mk [⟨flatInstA, 0⟩, ⟨flatInstB, 0⟩] 0).log =
        expectedLog 0 [flatInstA, flatInstB] ∧
      (LayerBuilderState.mk [⟨flatInstA, 0⟩, ⟨flatInstB, 0⟩] 0).log.map
        (fun r => r.inst) = [flatInstA, flatInstB] ∧
      (LayerBuilderState.mk [⟨flatInstA, 0⟩, ⟨flatInstB, 0⟩] 0).log.Chain'
        (fun a b => b.z_index = a.z_index + a.inst.descriptor.z_range) ∧
      (LayerBuilderState.mk [⟨flatInstA, 0⟩, ⟨flatInstB, 0⟩] 0).log.Pairwise
        (fun a b => a.z_index + a.inst.descriptor.z_range ≤ b.z_index) ∧
      ∀ id : Nat,
        (sortInstances (bucketOf ⟨[⟨flatInstA, 0⟩, ⟨flatInstB, 0⟩], 0⟩ id)).Pairwise
          (fun a b => a.z_index ≤ b.z_index) ∧
        (sortInstances (bucketOf ⟨[⟨flatInstA, 0⟩, ⟨flatInstB, 0⟩], 0⟩ id)).Perm
          (bucketOf ⟨[⟨flatInstA, 0⟩, ⟨flatInstB, 0⟩], 0⟩ id) ∧
        (∀ a b : RenderedInstance, a.z_index = b.z_index →
          [a, b].Sublist (bucketOf ⟨[⟨flatInstA, 0⟩, ⟨flatInstB, 0⟩], 0⟩ id) →
          [a, b].Sublist
            (sortInstances (bucketOf ⟨[⟨flatInstA, 0⟩, ⟨flatInstB, 0⟩], 0⟩ id)))) :=
  ⟨by decide,
    layer_z_disjoint_and_stable_sort [flatInstA, flatInstB]
      ⟨[⟨flatInstA, 0⟩, ⟨flatInstB, 0⟩], 0⟩ (by decide)⟩

end VectorImageRenderer
